import Mathlib

/-!
# dex-book-contracts: deployment script and Hardhat configuration

A shallow embedding of `scripts/deploy.js` and `hardhat.config.js`.

`deploy.js` is a straight-line asynchronous script.  Every `await` is a call
into Hardhat/ethers, which lives outside the repository, so the embedding takes
those calls as an environment `Hre σ` threading a world state `σ`.  Each call
either returns a value or throws; a throw inside `main` rejects the promise
returned by `main` and skips the rest of its body.  A call may also never
settle; then `main` never settles either and neither handler of the top level
runs.  The script's observable behaviour is the chronological list of `Event`s
it produces.

`hardhat.config.js` is an object literal built from two reads of `process.env`.
-/

namespace DexBook

/-- A value thrown by a rejected promise. -/
abbrev Error := String

/-- How an awaited call ends: the promise is fulfilled with a value, it is
rejected with an error, or it never settles. -/
inductive Outcome (α : Type) where
  | returned (value : α)
  | threw (error : Error)
  | pending
  deriving DecidableEq, Repr

/-- Everything the script does that is visible from outside, in order of occurrence. -/
inductive Event where
  /-- The call `hre.ethers.getContractFactory(name)` and whether it returned. -/
  | getContractFactory (name : String) (outcome : Outcome Unit)
  /-- The call `<name>Factory.deploy(...args)` and the `address` of the contract it returned. -/
  | deploy (name : String) (args : List String) (outcome : Outcome String)
  /-- The call `<name>.deployed()` and whether it returned. -/
  | deployed (name : String) (outcome : Outcome Unit)
  /-- The call `console.log(...args)`. -/
  | consoleLog (args : List String)
  /-- The call `console.error(error)`. -/
  | consoleError (error : Error)
  /-- The call `process.exit(code)`. -/
  | exit (code : Nat)
  deriving DecidableEq, Repr

/-- The object returned by `factory.deploy(...)`: its `address` property, which
reads the same on every access, and its `deployed()` method. -/
structure Contract (σ : Type) where
  address : String
  deployed : σ → Outcome Unit × σ

/-- The object returned by `getContractFactory`: its `deploy(...args)` method. -/
structure ContractFactory (σ : Type) where
  deploy : List String → σ → Outcome (Contract σ) × σ

/-- The part of `hre` the script uses: `hre.ethers.getContractFactory`. -/
structure Hre (σ : Type) where
  getContractFactory : String → σ → Outcome (ContractFactory σ) × σ

/-- State of the running process: the outside world and the events so far. -/
structure Process (σ : Type) where
  world : σ
  events : List Event

/-- An asynchronous computation: it runs on the process state and either
returns a value or throws. -/
def Async (σ : Type) (α : Type) : Type := Process σ → Outcome α × Process σ

/-- Sequencing of awaited computations: the continuation runs only when the
first computation returned; a throw propagates and skips it, and behind a call
that never settles nothing runs. -/
def Async.bind {σ α β : Type} (m : Async σ α) (f : α → Async σ β) : Async σ β :=
  fun p =>
    match m p with
    | (Outcome.returned a, q) => f a q
    | (Outcome.threw e, q) => (Outcome.threw e, q)
    | (Outcome.pending, q) => (Outcome.pending, q)

instance (σ : Type) : Monad (Async σ) where
  pure a := fun p => (Outcome.returned a, p)
  bind := Async.bind

/-- Append one event to the process history. -/
def Process.emit {σ : Type} (p : Process σ) (ev : Event) : Process σ :=
  { p with events := p.events ++ [ev] }

/-- Awaited external call: run it on the world, record the event describing it
and its outcome, and return or throw as the call did. -/
def await {σ α : Type} (call : σ → Outcome α × σ) (record : Outcome α → Event) :
    Async σ α :=
  fun p =>
    match call p.world with
    | (r, s) => (r, { world := s, events := p.events ++ [record r] })

/-- The outcome of a call seen through a function of its returned value. -/
def Outcome.map {α β : Type} (f : α → β) : Outcome α → Outcome β
  | Outcome.returned a => Outcome.returned (f a)
  | Outcome.threw e => Outcome.threw e
  | Outcome.pending => Outcome.pending

/-- The statement `await hre.ethers.getContractFactory(name)`. -/
def getContractFactory {σ : Type} (hre : Hre σ) (name : String) : Async σ (ContractFactory σ) :=
  await (hre.getContractFactory name) (fun r => Event.getContractFactory name (r.map (fun _ => ())))

/-- The statement `await factory.deploy(...args)` for the factory of contract `name`. -/
def deploy {σ : Type} (name : String) (factory : ContractFactory σ) (args : List String) :
    Async σ (Contract σ) :=
  await (factory.deploy args) (fun r => Event.deploy name args (r.map Contract.address))

/-- The statement `await contract.deployed()` for the contract `name`. -/
def deployed {σ : Type} (name : String) (contract : Contract σ) : Async σ Unit :=
  await contract.deployed (fun r => Event.deployed name r)

/-- The statement `console.log(...args)`. -/
def consoleLog {σ : Type} (args : List String) : Async σ Unit :=
  fun p => (Outcome.returned (), p.emit (Event.consoleLog args))

/-- The function `main` of `deploy.js`. -/
def main {σ : Type} (hre : Hre σ) : Async σ Unit := do
  let usdcFactory ← getContractFactory hre "USDC"
  let usdc ← deploy "USDC" usdcFactory []
  deployed "USDC" usdc
  consoleLog ["usdc contract address:", usdc.address]
  let wethFactory ← getContractFactory hre "WETH"
  let weth ← deploy "WETH" wethFactory []
  deployed "WETH" weth
  consoleLog ["weth contract address:", weth.address]
  let dexBookFactory ← getContractFactory hre "DexBook"
  let dexBook ← deploy "DexBook" dexBookFactory [weth.address, usdc.address]
  deployed "DexBook" dexBook
  consoleLog ["dexBook contract address:", dexBook.address]

/-- The top level of `deploy.js`:
`main().then(() => process.exit(0)).catch((error) => { console.error(error); process.exit(1); })`.
When the promise of `main` never settles, neither callback is called. -/
def script {σ : Type} (hre : Hre σ) (s : σ) : Process σ :=
  match main hre { world := s, events := [] } with
  | (Outcome.returned _, p) => p.emit (Event.exit 0)
  | (Outcome.threw error, p) => (p.emit (Event.consoleError error)).emit (Event.exit 1)
  | (Outcome.pending, p) => p

/-- The observable history of one run of `deploy.js`. -/
def run {σ : Type} (hre : Hre σ) (s : σ) : List Event := (script hre s).events

/-! ## Observations on a history -/

/-- The order in which `main` goes through its three units (lines 5, 11, 17). -/
def executionOrder : List String := ["USDC", "WETH", "DexBook"]

/-- The first argument of the `console.log` call of a unit (lines 9, 15, 21). -/
def reportLabel (name : String) : String :=
  if name = "USDC" then "usdc contract address:"
  else if name = "WETH" then "weth contract address:"
  else if name = "DexBook" then "dexBook contract address:"
  else ""

/-- The units that come after `name` in the execution order. -/
def laterUnits (name : String) : List String :=
  (executionOrder.dropWhile (fun n => decide (n ≠ name))).drop 1

/-- The unit an external call belongs to. -/
def Event.unit : Event → Option String
  | Event.getContractFactory name _ => some name
  | Event.deploy name _ _ => some name
  | Event.deployed name _ => some name
  | _ => none

/-- The three kinds of external call the script makes. -/
inductive Kind where
  | getContractFactory
  | deploy
  | deployed
  deriving DecidableEq, Repr

/-- The kind and the unit of an external call. -/
def Event.call : Event → Option (Kind × String)
  | Event.getContractFactory name _ => some (Kind.getContractFactory, name)
  | Event.deploy name _ _ => some (Kind.deploy, name)
  | Event.deployed name _ => some (Kind.deployed, name)
  | _ => none

/-- The error of an external call that threw. -/
def Event.thrown : Event → Option Error
  | Event.getContractFactory _ (Outcome.threw e) => some e
  | Event.deploy _ _ (Outcome.threw e) => some e
  | Event.deployed _ (Outcome.threw e) => some e
  | _ => none

/-- An external call that never settled. -/
def Event.unsettled : Event → Bool
  | Event.getContractFactory _ Outcome.pending => true
  | Event.deploy _ _ Outcome.pending => true
  | Event.deployed _ Outcome.pending => true
  | _ => false

/-- The outcome of a `deploy` call. -/
def Event.deployOutcome : Event → Option (Outcome String)
  | Event.deploy _ _ o => some o
  | _ => none

/-- The `deploy` calls of a history, in order. -/
def deployments (evs : List Event) : List Event :=
  evs.filter (fun ev => ev.deployOutcome.isSome)

/-- The external calls of a history, in order, each with its kind and unit. -/
def calls (evs : List Event) : List (Kind × String) := evs.filterMap Event.call

/-- The number of calls of one kind made for a unit. -/
def callCount (evs : List Event) (kind : Kind) (name : String) : Nat :=
  (calls evs).countP (fun c => decide (c = (kind, name)))

/-- The number of external calls of any kind that threw. -/
def throwCount (evs : List Event) : Nat :=
  (evs.filter (fun ev => ev.thrown.isSome)).length

/-- Standard output: one line per `console.log`, its arguments separated by a blank. -/
def stdout (evs : List Event) : List String :=
  evs.filterMap (fun ev =>
    match ev with
    | Event.consoleLog args => some (" ".intercalate args)
    | _ => none)

/-- Error output: the values passed to `console.error`. -/
def stderr (evs : List Event) : List Error :=
  evs.filterMap (fun ev =>
    match ev with
    | Event.consoleError e => some e
    | _ => none)

/-- The codes passed to `process.exit`. -/
def exitCodes (evs : List Event) : List Nat :=
  evs.filterMap (fun ev =>
    match ev with
    | Event.exit code => some code
    | _ => none)

/-- The events that precede the first `deploy` call made for a unit. -/
def beforeDeploy (evs : List Event) (name : String) : List Event :=
  evs.takeWhile (fun ev => !decide (ev.deployOutcome.isSome ∧ ev.unit = some name))

/-- Every external call of the run settled: it returned or it threw. -/
def settled (evs : List Event) : Prop := ∀ ev ∈ evs, ev.unsettled = false

/-- No step of the run failed: every external call returned. -/
def succeeded (evs : List Event) : Prop :=
  ∀ ev ∈ evs, ev.thrown = none ∧ ev.unsettled = false

/-- One of the three calls of unit `name` threw. -/
def failedAt (evs : List Event) (name : String) : Prop :=
  ∃ ev ∈ evs, ev.unit = some name ∧ ev.thrown ≠ none

instance (evs : List Event) : Decidable (settled evs) :=
  inferInstanceAs (Decidable (∀ ev ∈ evs, ev.unsettled = false))

instance (evs : List Event) : Decidable (succeeded evs) :=
  inferInstanceAs (Decidable (∀ ev ∈ evs, ev.thrown = none ∧ ev.unsettled = false))

instance (evs : List Event) (name : String) : Decidable (failedAt evs name) :=
  inferInstanceAs (Decidable (∃ ev ∈ evs, ev.unit = some name ∧ ev.thrown ≠ none))

/-- The deployment of unit `name` went through: its `deploy` call returned a
contract and its `deployed()` call returned. -/
def confirmed (evs : List Event) (name : String) : Prop :=
  (∃ args address, Event.deploy name args (Outcome.returned address) ∈ evs) ∧
  Event.deployed name (Outcome.returned ()) ∈ evs

/-- The unit `name` was reported: a `console.log` with its label was made. -/
def reported (evs : List Event) (name : String) : Prop :=
  ∃ address, Event.consoleLog [reportLabel name, address] ∈ evs

/-! ## Scripted environments -/

/-- The call of a unit at which a scripted environment throws or never
settles, if any. -/
inductive Fault where
  | none
  | getContractFactory (error : Error)
  | deploy (error : Error)
  | deployed (error : Error)
  | stall (kind : Kind)
  deriving DecidableEq, Repr

/-- An environment without state in which the contract `name` gets the address
`"0x" ++ name` and the calls throw or stall as `fault` prescribes. -/
def scripted (fault : String → Fault) : Hre Unit where
  getContractFactory := fun name s =>
    match fault name with
    | Fault.getContractFactory e => (Outcome.threw e, s)
    | Fault.stall Kind.getContractFactory => (Outcome.pending, s)
    | f =>
      (Outcome.returned
        { deploy := fun _ s =>
            match f with
            | Fault.deploy e => (Outcome.threw e, s)
            | Fault.stall Kind.deploy => (Outcome.pending, s)
            | g =>
              (Outcome.returned
                { address := "0x" ++ name
                  deployed := fun s =>
                    match g with
                    | Fault.deployed e => (Outcome.threw e, s)
                    | Fault.stall Kind.deployed => (Outcome.pending, s)
                    | _ => (Outcome.returned (), s) }, s) }, s)

/-- The environment in which every call returns. -/
def allFine : Hre Unit := scripted (fun _ => Fault.none)

/-- The environment in which the one call `fault` of unit `unit` throws. -/
def failing (unit : String) (fault : Fault) : Hre Unit :=
  scripted (fun name => if name = unit then fault else Fault.none)

/-! ## The references of the script, read off `main` -/

/-- The environment in which every call returns and the contract deployed for
`name` has the address `name`: in its run each constructor argument is the name
of the unit whose address `main` passes there. -/
def naming : Hre Unit where
  getContractFactory := fun name s =>
    (Outcome.returned
      { deploy := fun _ s =>
          (Outcome.returned
            { address := name
              deployed := fun s => (Outcome.returned (), s) }, s) }, s)

/-- The arguments of the first `deploy` call made for a unit, none when there is
no such call. -/
def deployArgs (evs : List Event) (name : String) : List String :=
  match evs.find? (fun ev => decide (ev.call = some (Kind.deploy, name))) with
  | some (Event.deploy _ args _) => args
  | _ => []

/-- The units `main` deploys, in the order in which it deploys them. -/
def scriptOrder : List String := (deployments (run naming ())).filterMap Event.unit

/-- The units whose addresses `main` passes to the `deploy` call of a unit, in
argument order. -/
def constructorRefs (name : String) : List String := deployArgs (run naming ()) name

/-- One unit takes the address of another as a constructor argument. -/
def dependsOn (a b : String) : Prop := b ∈ constructorRefs a

/-! ## The Hardhat configuration -/

/-- The object `process.env` as `hardhat.config.js` reads it on lines 5 and 6,
after `dotenv` has loaded `.env`; a variable that is unset reads as `undefined`,
here `none`. -/
abbrev Env := String → Option String

/-- One entry of `networks`. -/
structure NetworkConfig where
  url : Option String
  accounts : List (Option String)
  deriving DecidableEq, Repr

/-- The object assigned to `module.exports`. -/
structure HardhatConfig where
  solidity : String
  networks : List (String × NetworkConfig)
  deriving DecidableEq, Repr

/-- Evaluation of `hardhat.config.js` in an environment: the two reads of
`process.env` and the object literal assigned to `module.exports`.  No statement
of the file throws. -/
def moduleExports (env : Env) : Outcome HardhatConfig :=
  let APOTHEM_NETWORK_URL := env "RPC_URL_APOTHEM"
  let APOTHEM_PRIVATE_KEY := env "PRIVATE_KEY"
  Outcome.returned
    { solidity := "0.8.19"
      networks :=
        [("apothem", { url := APOTHEM_NETWORK_URL, accounts := [APOTHEM_PRIVATE_KEY] })] }

/-- The environment in which no variable is set. -/
def emptyEnv : Env := fun _ => none

/-- An environment in which both variables the configuration reads are set. -/
def apothemEnv : Env := fun key =>
  if key = "RPC_URL_APOTHEM" then some "https://erpc.apothem.network"
  else if key = "PRIVATE_KEY" then some "0xkey"
  else none

/-! ## The shapes a run can take -/

/-- Events of a unit whose three calls all returned, followed by its report line. -/
def completed (name label : String) (args : List String) (address : String) : List Event :=
  [Event.getContractFactory name (Outcome.returned ()),
   Event.deploy name args (Outcome.returned address),
   Event.deployed name (Outcome.returned ()),
   Event.consoleLog [label, address]]

/-- How a call that does not return ends. -/
inductive Halt where
  | threw (error : Error)
  | pending
  deriving DecidableEq, Repr

/-- The outcome recorded for a call that does not return. -/
def Halt.outcome {α : Type} : Halt → Outcome α
  | Halt.threw e => Outcome.threw e
  | Halt.pending => Outcome.pending

/-- What follows a call that does not return: the handler of `.catch` after a
throw, nothing after a call that never settles. -/
def Halt.handler : Halt → List Event
  | Halt.threw e => [Event.consoleError e, Event.exit 1]
  | Halt.pending => []

/-- The three calls of a unit at which a run can stop. -/
inductive Failure where
  | atGetContractFactory (h : Halt)
  | atDeploy (h : Halt)
  | atDeployed (address : String) (h : Halt)
  deriving DecidableEq, Repr

/-- Events of a unit one of whose calls did not return, followed by what the
top level does then. -/
def aborted (name : String) (args : List String) : Failure → List Event
  | Failure.atGetContractFactory h =>
    [Event.getContractFactory name h.outcome] ++ h.handler
  | Failure.atDeploy h =>
    [Event.getContractFactory name (Outcome.returned ()),
     Event.deploy name args h.outcome] ++ h.handler
  | Failure.atDeployed a h =>
    [Event.getContractFactory name (Outcome.returned ()),
     Event.deploy name args (Outcome.returned a),
     Event.deployed name h.outcome] ++ h.handler

/-- The way the failing call of a unit ended. -/
def Failure.halt : Failure → Halt
  | Failure.atGetContractFactory h => h
  | Failure.atDeploy h => h
  | Failure.atDeployed _ h => h

/-- The four ways a run can go: stop in the USDC block, in the WETH block, in
the DexBook block, or run to the end. -/
inductive Shape where
  | failUsdc (f : Failure)
  | failWeth (usdc : String) (f : Failure)
  | failDexBook (usdc weth : String) (f : Failure)
  | success (usdc weth dexBook : String)
  deriving DecidableEq, Repr

/-- The history belonging to a shape. -/
def Shape.events : Shape → List Event
  | Shape.failUsdc f => aborted "USDC" [] f
  | Shape.failWeth u f =>
    completed "USDC" "usdc contract address:" [] u ++ aborted "WETH" [] f
  | Shape.failDexBook u w f =>
    completed "USDC" "usdc contract address:" [] u ++
    completed "WETH" "weth contract address:" [] w ++ aborted "DexBook" [w, u] f
  | Shape.success u w d =>
    completed "USDC" "usdc contract address:" [] u ++
    completed "WETH" "weth contract address:" [] w ++
    completed "DexBook" "dexBook contract address:" [w, u] d ++ [Event.exit 0]

/-- The unit in whose block a shape stops. -/
def Shape.failedUnit : Shape → Option String
  | Shape.failUsdc _ => some "USDC"
  | Shape.failWeth _ _ => some "WETH"
  | Shape.failDexBook _ _ _ => some "DexBook"
  | Shape.success _ _ _ => none

/-- The way the run of a shape stops short, if it does. -/
def Shape.halt : Shape → Option Halt
  | Shape.failUsdc f => some f.halt
  | Shape.failWeth _ f => some f.halt
  | Shape.failDexBook _ _ f => some f.halt
  | Shape.success _ _ _ => none

/-! ## Every run has one of the shapes -/

/-- The history of a run is the history of one of the shapes; the proof follows
the nine awaited calls of `main` one after the other. -/
theorem run_shape {σ : Type} (hre : Hre σ) (s : σ) : ∃ sh : Shape, run hre s = sh.events := by
  unfold run script main
  simp only [bind, Async.bind, getContractFactory, deploy, deployed, consoleLog, await,
    Process.emit]
  rcases h1 : hre.getContractFactory "USDC" s with ⟨fu | e | _, s1⟩
  · rcases h2 : fu.deploy [] s1 with ⟨cu | e | _, s2⟩
    · rcases h3 : cu.deployed s2 with ⟨⟨⟨⟩⟩ | e | _, s3⟩
      · rcases h4 : hre.getContractFactory "WETH" s3 with ⟨fw | e | _, s4⟩
        · rcases h5 : fw.deploy [] s4 with ⟨cw | e | _, s5⟩
          · rcases h6 : cw.deployed s5 with ⟨⟨⟨⟩⟩ | e | _, s6⟩
            · rcases h7 : hre.getContractFactory "DexBook" s6 with ⟨fd | e | _, s7⟩
              · rcases h8 : fd.deploy [cw.address, cu.address] s7 with ⟨cd | e | _, s8⟩
                · rcases h9 : cd.deployed s8 with ⟨⟨⟨⟩⟩ | e | _, s9⟩
                  · exact ⟨Shape.success cu.address cw.address cd.address, by
                      simp [h1, h2, h3, h4, h5, h6, h7, h8, h9, Shape.events, completed,
                        Outcome.map]⟩
                  · exact ⟨Shape.failDexBook cu.address cw.address
                      (Failure.atDeployed cd.address (Halt.threw e)), by
                      simp [h1, h2, h3, h4, h5, h6, h7, h8, h9, Shape.events, completed,
                        aborted, Halt.outcome, Halt.handler, Outcome.map]⟩
                  · exact ⟨Shape.failDexBook cu.address cw.address
                      (Failure.atDeployed cd.address Halt.pending), by
                      simp [h1, h2, h3, h4, h5, h6, h7, h8, h9, Shape.events, completed,
                        aborted, Halt.outcome, Halt.handler, Outcome.map]⟩
                · exact ⟨Shape.failDexBook cu.address cw.address
                    (Failure.atDeploy (Halt.threw e)), by
                    simp [h1, h2, h3, h4, h5, h6, h7, h8, Shape.events, completed, aborted,
                      Halt.outcome, Halt.handler, Outcome.map]⟩
                · exact ⟨Shape.failDexBook cu.address cw.address
                    (Failure.atDeploy Halt.pending), by
                    simp [h1, h2, h3, h4, h5, h6, h7, h8, Shape.events, completed, aborted,
                      Halt.outcome, Halt.handler, Outcome.map]⟩
              · exact ⟨Shape.failDexBook cu.address cw.address
                  (Failure.atGetContractFactory (Halt.threw e)), by
                  simp [h1, h2, h3, h4, h5, h6, h7, Shape.events, completed, aborted,
                    Halt.outcome, Halt.handler, Outcome.map]⟩
              · exact ⟨Shape.failDexBook cu.address cw.address
                  (Failure.atGetContractFactory Halt.pending), by
                  simp [h1, h2, h3, h4, h5, h6, h7, Shape.events, completed, aborted,
                    Halt.outcome, Halt.handler, Outcome.map]⟩
            · exact ⟨Shape.failWeth cu.address (Failure.atDeployed cw.address (Halt.threw e)),
                by simp [h1, h2, h3, h4, h5, h6, Shape.events, completed, aborted,
                  Halt.outcome, Halt.handler, Outcome.map]⟩
            · exact ⟨Shape.failWeth cu.address (Failure.atDeployed cw.address Halt.pending),
                by simp [h1, h2, h3, h4, h5, h6, Shape.events, completed, aborted,
                  Halt.outcome, Halt.handler, Outcome.map]⟩
          · exact ⟨Shape.failWeth cu.address (Failure.atDeploy (Halt.threw e)), by
              simp [h1, h2, h3, h4, h5, Shape.events, completed, aborted, Halt.outcome,
                Halt.handler, Outcome.map]⟩
          · exact ⟨Shape.failWeth cu.address (Failure.atDeploy Halt.pending), by
              simp [h1, h2, h3, h4, h5, Shape.events, completed, aborted, Halt.outcome,
                Halt.handler, Outcome.map]⟩
        · exact ⟨Shape.failWeth cu.address (Failure.atGetContractFactory (Halt.threw e)), by
            simp [h1, h2, h3, h4, Shape.events, completed, aborted, Halt.outcome,
              Halt.handler, Outcome.map]⟩
        · exact ⟨Shape.failWeth cu.address (Failure.atGetContractFactory Halt.pending), by
            simp [h1, h2, h3, h4, Shape.events, completed, aborted, Halt.outcome,
              Halt.handler, Outcome.map]⟩
      · exact ⟨Shape.failUsdc (Failure.atDeployed cu.address (Halt.threw e)), by
          simp [h1, h2, h3, Shape.events, aborted, Halt.outcome, Halt.handler, Outcome.map]⟩
      · exact ⟨Shape.failUsdc (Failure.atDeployed cu.address Halt.pending), by
          simp [h1, h2, h3, Shape.events, aborted, Halt.outcome, Halt.handler, Outcome.map]⟩
    · exact ⟨Shape.failUsdc (Failure.atDeploy (Halt.threw e)), by
        simp [h1, h2, Shape.events, aborted, Halt.outcome, Halt.handler, Outcome.map]⟩
    · exact ⟨Shape.failUsdc (Failure.atDeploy Halt.pending), by
        simp [h1, h2, Shape.events, aborted, Halt.outcome, Halt.handler, Outcome.map]⟩
  · exact ⟨Shape.failUsdc (Failure.atGetContractFactory (Halt.threw e)), by
      simp [h1, Shape.events, aborted, Halt.outcome, Halt.handler, Outcome.map]⟩
  · exact ⟨Shape.failUsdc (Failure.atGetContractFactory Halt.pending), by
      simp [h1, Shape.events, aborted, Halt.outcome, Halt.handler, Outcome.map]⟩

/-- A history in which a call of unit `name` threw stops in the block of `name`. -/
theorem failedAt_shape (sh : Shape) (name : String) (h : failedAt sh.events name) :
    sh.failedUnit = some name ∧ ∃ e, sh.halt = some (Halt.threw e) := by
  rcases sh with f | ⟨u, f⟩ | ⟨u, w, f⟩ | ⟨u, w, d⟩
  · rcases f with h' | h' | ⟨a, h'⟩ <;> rcases h' with e | _ <;>
      simp [failedAt, Shape.events, aborted, Halt.outcome, Halt.handler, Event.unit,
        Event.thrown] at h <;>
      simp [Shape.failedUnit, Shape.halt, Failure.halt, h]
  · rcases f with h' | h' | ⟨a, h'⟩ <;> rcases h' with e | _ <;>
      simp [failedAt, Shape.events, completed, aborted, Halt.outcome, Halt.handler,
        Event.unit, Event.thrown] at h <;>
      simp [Shape.failedUnit, Shape.halt, Failure.halt, h]
  · rcases f with h' | h' | ⟨a, h'⟩ <;> rcases h' with e | _ <;>
      simp [failedAt, Shape.events, completed, aborted, Halt.outcome, Halt.handler,
        Event.unit, Event.thrown] at h <;>
      simp [Shape.failedUnit, Shape.halt, Failure.halt, h]
  · simp [failedAt, Shape.events, completed, Event.unit, Event.thrown] at h

/-- In the history of a shape, a call that threw is followed by the
`console.error` of its error and by `process.exit(1)`, and nothing else. -/
theorem thrown_tail (sh : Shape) (ev : Event) (e : Error) (hev : ev ∈ sh.events)
    (hth : ev.thrown = some e) :
    sh.events = sh.events.dropLast.dropLast.dropLast ++
      [ev, Event.consoleError e, Event.exit 1] ∧
    stderr sh.events = [e] ∧ exitCodes sh.events = [1] := by
  rcases sh with f | ⟨u, f⟩ | ⟨u, w, f⟩ | ⟨u, w, d⟩
  · rcases f with h' | h' | ⟨a, h'⟩ <;> rcases h' with e' | _ <;>
      simp only [Shape.events, aborted, Halt.outcome, Halt.handler, List.mem_cons,
        List.mem_singleton, List.mem_append, List.not_mem_nil, or_false] at hev <;>
      (try casesm* _ ∨ _) <;> subst_vars <;> simp [Event.thrown] at hth <;> subst_vars <;>
      simp [Shape.events, aborted, Halt.outcome, Halt.handler, stderr, exitCodes]
  · rcases f with h' | h' | ⟨a, h'⟩ <;> rcases h' with e' | _ <;>
      simp only [Shape.events, aborted, completed, Halt.outcome, Halt.handler, List.mem_cons,
        List.mem_singleton, List.mem_append, List.not_mem_nil, or_false] at hev <;>
      (try casesm* _ ∨ _) <;> subst_vars <;> simp [Event.thrown] at hth <;> subst_vars <;>
      simp [Shape.events, aborted, completed, Halt.outcome, Halt.handler, stderr, exitCodes]
  · rcases f with h' | h' | ⟨a, h'⟩ <;> rcases h' with e' | _ <;>
      simp only [Shape.events, aborted, completed, Halt.outcome, Halt.handler, List.mem_cons,
        List.mem_singleton, List.mem_append, List.not_mem_nil, or_false] at hev <;>
      (try casesm* _ ∨ _) <;> subst_vars <;> simp [Event.thrown] at hth <;> subst_vars <;>
      simp [Shape.events, aborted, completed, Halt.outcome, Halt.handler, stderr, exitCodes]
  · simp only [Shape.events, completed, List.mem_cons, List.mem_singleton,
        List.mem_append, List.not_mem_nil, or_false] at hev
    casesm* _ ∨ _ <;> subst_vars <;> simp [Event.thrown] at hth

/-- A history with a call that never settled belongs to a shape that stops at a
pending call. -/
theorem unsettled_shape (sh : Shape) (h : ¬ settled sh.events) :
    sh.halt = some Halt.pending := by
  rcases sh with f | ⟨u, f⟩ | ⟨u, w, f⟩ | ⟨u, w, d⟩
  · rcases f with h' | h' | ⟨a, h'⟩ <;> rcases h' with e | _ <;>
      simp [settled, Shape.events, aborted, Halt.outcome, Halt.handler,
        Event.unsettled] at h <;>
      simp [Shape.halt, Failure.halt]
  · rcases f with h' | h' | ⟨a, h'⟩ <;> rcases h' with e | _ <;>
      simp [settled, Shape.events, completed, aborted, Halt.outcome, Halt.handler,
        Event.unsettled] at h <;>
      simp [Shape.halt, Failure.halt]
  · rcases f with h' | h' | ⟨a, h'⟩ <;> rcases h' with e | _ <;>
      simp [settled, Shape.events, completed, aborted, Halt.outcome, Halt.handler,
        Event.unsettled] at h <;>
      simp [Shape.halt, Failure.halt]
  · simp [settled, Shape.events, completed, Event.unsettled] at h

/-- A history all of whose calls settled belongs to a shape that runs to the
end or stops at a throw. -/
theorem settled_shape (sh : Shape) (h : settled sh.events) :
    sh.halt ≠ some Halt.pending := by
  rcases sh with f | ⟨u, f⟩ | ⟨u, w, f⟩ | ⟨u, w, d⟩
  · rcases f with h' | h' | ⟨a, h'⟩ <;> rcases h' with e | _ <;>
      simp [settled, Shape.events, aborted, Halt.outcome, Halt.handler,
        Event.unsettled] at h <;>
      simp [Shape.halt, Failure.halt]
  · rcases f with h' | h' | ⟨a, h'⟩ <;> rcases h' with e | _ <;>
      simp [settled, Shape.events, completed, aborted, Halt.outcome, Halt.handler,
        Event.unsettled] at h <;>
      simp [Shape.halt, Failure.halt]
  · rcases f with h' | h' | ⟨a, h'⟩ <;> rcases h' with e | _ <;>
      simp [settled, Shape.events, completed, aborted, Halt.outcome, Halt.handler,
        Event.unsettled] at h <;>
      simp [Shape.halt, Failure.halt]
  · simp [Shape.halt]

/-- A history all of whose calls returned belongs to the shape that runs to the
end. -/
theorem succeeded_shape (sh : Shape) (h : succeeded sh.events) :
    ∃ u w d, sh = Shape.success u w d := by
  rcases sh with f | ⟨u, f⟩ | ⟨u, w, f⟩ | ⟨u, w, d⟩
  · rcases f with h' | h' | ⟨a, h'⟩ <;> rcases h' with e | _ <;>
      simp [succeeded, Shape.events, aborted, Halt.outcome, Halt.handler, Event.thrown,
        Event.unsettled] at h
  · rcases f with h' | h' | ⟨a, h'⟩ <;> rcases h' with e | _ <;>
      simp [succeeded, Shape.events, completed, aborted, Halt.outcome, Halt.handler,
        Event.thrown, Event.unsettled] at h
  · rcases f with h' | h' | ⟨a, h'⟩ <;> rcases h' with e | _ <;>
      simp [succeeded, Shape.events, completed, aborted, Halt.outcome, Halt.handler,
        Event.thrown, Event.unsettled] at h
  · exact ⟨u, w, d, rfl⟩

/-- The three units `main` deploys, read off its run in the naming environment. -/
theorem scriptOrder_eq : scriptOrder = ["USDC", "WETH", "DexBook"] := by decide

/-- The references of each unit, read off the run of `main` in the naming
environment: WETH and USDC for DexBook, none for any other name. -/
theorem constructorRefs_eq (name : String) :
    constructorRefs name = if name = "DexBook" then ["WETH", "USDC"] else [] := by
  have hrun : run naming () =
      [Event.getContractFactory "USDC" (Outcome.returned ()),
       Event.deploy "USDC" [] (Outcome.returned "USDC"),
       Event.deployed "USDC" (Outcome.returned ()),
       Event.consoleLog ["usdc contract address:", "USDC"],
       Event.getContractFactory "WETH" (Outcome.returned ()),
       Event.deploy "WETH" [] (Outcome.returned "WETH"),
       Event.deployed "WETH" (Outcome.returned ()),
       Event.consoleLog ["weth contract address:", "WETH"],
       Event.getContractFactory "DexBook" (Outcome.returned ()),
       Event.deploy "DexBook" ["WETH", "USDC"] (Outcome.returned "DexBook"),
       Event.deployed "DexBook" (Outcome.returned ()),
       Event.consoleLog ["dexBook contract address:", "DexBook"],
       Event.exit 0] := by decide
  unfold constructorRefs deployArgs
  rw [hrun]
  by_cases h1 : name = "DexBook"
  · subst h1
    simp [List.find?, Event.call]
  · by_cases h2 : name = "USDC"
    · subst h2
      simp [List.find?, Event.call]
    · by_cases h3 : name = "WETH"
      · subst h3
        simp [List.find?, Event.call]
      · have h1' : ¬ "DexBook" = name := fun h => h1 h.symm
        have h2' : ¬ "USDC" = name := fun h => h2 h.symm
        have h3' : ¬ "WETH" = name := fun h => h3 h.symm
        simp [List.find?, Event.call, h1, h1', h2', h3']

/-- A unit comes later in the order of the script than every unit it refers to. -/
theorem dependsOn_indexOf (a b : String) (h : dependsOn a b) :
    scriptOrder.indexOf b < scriptOrder.indexOf a := by
  unfold dependsOn at h
  rw [constructorRefs_eq] at h
  rw [scriptOrder_eq]
  split at h
  · subst a
    simp at h
    rcases h with rfl | rfl <;> decide
  · simp at h

/-- Along a chain of references the position in the order of the script
decreases. -/
theorem transGen_dependsOn_indexOf (a b : String) (h : Relation.TransGen dependsOn a b) :
    scriptOrder.indexOf b < scriptOrder.indexOf a := by
  induction h with
  | single hab => exact dependsOn_indexOf _ _ hab
  | tail _ hbc ih => exact lt_trans (dependsOn_indexOf _ _ hbc) ih

/-! ## The deployment script -/

/-- C1: in every run, if the USDC deployment returned the address `u`, the WETH
deployment returned the address `w` and the DexBook deployment was invoked,
then it was invoked with exactly the two arguments `w`, `u`, in this order. -/
theorem dexBook_constructor_arguments {σ : Type} (hre : Hre σ) (s : σ)
    (u w : String) (argsU argsW argsD : List String) (o : Outcome String)
    (hU : Event.deploy "USDC" argsU (Outcome.returned u) ∈ run hre s)
    (hW : Event.deploy "WETH" argsW (Outcome.returned w) ∈ run hre s)
    (hD : Event.deploy "DexBook" argsD o ∈ run hre s) :
    argsD = [w, u] := by
  obtain ⟨sh, hsh⟩ := run_shape hre s
  rw [hsh] at hU hW hD
  rcases sh with f | ⟨u', f⟩ | ⟨u', w', f⟩ | ⟨u', w', d'⟩ <;>
    first
    | (rcases f with h | h | ⟨a, h⟩ <;> rcases h with e | _ <;>
        simp [Shape.events, completed, aborted, Halt.outcome, Halt.handler] at hU hW hD <;>
        simp_all)
    | (simp [Shape.events, completed] at hU hW hD; simp_all)

/-- The hypotheses of C1 hold in the run in which every call returns. -/
theorem dexBook_constructor_arguments_witness :
    Event.deploy "USDC" [] (Outcome.returned "0xUSDC") ∈ run allFine () ∧
    Event.deploy "WETH" [] (Outcome.returned "0xWETH") ∈ run allFine () ∧
    Event.deploy "DexBook" ["0xWETH", "0xUSDC"] (Outcome.returned "0xDexBook") ∈
      run allFine () ∧
    ["0xWETH", "0xUSDC"] = ["0xWETH", "0xUSDC"] :=
  ⟨by decide, by decide, by decide,
    dexBook_constructor_arguments allFine () "0xUSDC" "0xWETH" [] [] ["0xWETH", "0xUSDC"]
      (Outcome.returned "0xDexBook") (by decide) (by decide) (by decide)⟩

/-- C2: in a run in which no step fails, the `deploy` calls are those of USDC,
WETH and DexBook in this order, one each; both `deployed()` confirmations of
USDC and WETH precede the `deploy` call of DexBook; and any other run whose
`deploy` calls have the same outcomes makes the same `deploy` calls. -/
theorem deployment_order {σ : Type} (hre : Hre σ) (s : σ) (h : succeeded (run hre s)) :
    (deployments (run hre s)).map Event.unit = executionOrder.map some ∧
    (∀ name ∈ executionOrder, callCount (run hre s) Kind.deploy name = 1) ∧
    Event.deployed "USDC" (Outcome.returned ()) ∈ beforeDeploy (run hre s) "DexBook" ∧
    Event.deployed "WETH" (Outcome.returned ()) ∈ beforeDeploy (run hre s) "DexBook" ∧
    (∀ (τ : Type) (hre' : Hre τ) (s' : τ),
      (deployments (run hre s)).map Event.deployOutcome =
        (deployments (run hre' s')).map Event.deployOutcome →
      deployments (run hre s) = deployments (run hre' s')) := by
  obtain ⟨sh, hsh⟩ := run_shape hre s
  rw [hsh] at h ⊢
  obtain ⟨u, w, d, rfl⟩ := succeeded_shape sh h
  refine ⟨?_, ?_, ?_, ?_, ?_⟩
  · simp [Shape.events, completed, deployments, Event.deployOutcome, Event.unit,
      executionOrder]
  · simp [Shape.events, completed, callCount, calls, Event.call, executionOrder]
  · simp [Shape.events, completed, beforeDeploy, Event.deployOutcome, Event.unit,
      List.takeWhile]
  · simp [Shape.events, completed, beforeDeploy, Event.deployOutcome, Event.unit,
      List.takeWhile]
  · intro τ hre' s' hout
    obtain ⟨sh', hsh'⟩ := run_shape hre' s'
    rw [hsh'] at hout ⊢
    rcases sh' with f | ⟨u', f⟩ | ⟨u', w', f⟩ | ⟨u', w', d'⟩ <;>
      first
      | (rcases f with h' | h' | ⟨a, h'⟩ <;> rcases h' with e | _ <;>
          simp [Shape.events, completed, aborted, Halt.outcome, Halt.handler, deployments,
            Event.deployOutcome] at hout ⊢ <;>
          simp_all)
      | (simp [Shape.events, completed, deployments, Event.deployOutcome] at hout ⊢
         simp_all)

/-- The hypothesis of C2 holds in the run in which every call returns. -/
theorem deployment_order_witness :
    succeeded (run allFine ()) ∧
    (deployments (run allFine ())).map Event.unit = executionOrder.map some ∧
    Event.deployed "WETH" (Outcome.returned ()) ∈ beforeDeploy (run allFine ()) "DexBook" :=
  ⟨by decide, (deployment_order allFine () (by decide)).1,
    (deployment_order allFine () (by decide)).2.2.2.1⟩

/-- C3: if one of the calls of the `k`-th unit of the execution order throws
(`k` being 1, 2 or 3), then exactly the first `k - 1` units have their address
line printed, standard output holds `k - 1` lines, and the history holds no
factory lookup, deployment or confirmation of any unit after the `k`-th. -/
theorem fail_fast {σ : Type} (hre : Hre σ) (s : σ) (k : Nat) (name : String)
    (hk : 1 ≤ k) (hname : executionOrder[k - 1]? = some name)
    (hfail : failedAt (run hre s) name) :
    (∀ n ∈ executionOrder, reported (run hre s) n ↔ n ∈ executionOrder.take (k - 1)) ∧
    (stdout (run hre s)).length = k - 1 ∧
    (∀ ev ∈ run hre s, ∀ n ∈ executionOrder.drop k, ev.unit ≠ some n) := by
  obtain ⟨sh, hsh⟩ := run_shape hre s
  rw [hsh] at hfail ⊢
  obtain ⟨hunit, -⟩ := failedAt_shape sh name hfail
  have hk3 : k - 1 < 3 := by
    by_contra hge
    have : executionOrder[k - 1]? = none := by
      apply List.getElem?_eq_none
      simp [executionOrder]; omega
    simp [this] at hname
  have hcases : k = 1 ∨ k = 2 ∨ k = 3 := by omega
  rcases hcases with rfl | rfl | rfl
  · simp [executionOrder] at hname
    subst hname
    rcases sh with f | ⟨u, f⟩ | ⟨u, w, f⟩ | ⟨u, w, d⟩ <;> simp [Shape.failedUnit] at hunit
    rcases f with h | h | ⟨a, h⟩ <;> rcases h with e | _ <;>
      exact ⟨by simp [reported, reportLabel, executionOrder, Shape.events, completed, aborted,
          Halt.outcome, Halt.handler],
        by simp [stdout, Shape.events, completed, aborted, Halt.outcome, Halt.handler],
        by simp [executionOrder, Shape.events, completed, aborted, Halt.outcome,
          Halt.handler, Event.unit]⟩
  · simp [executionOrder] at hname
    subst hname
    rcases sh with f | ⟨u, f⟩ | ⟨u, w, f⟩ | ⟨u, w, d⟩ <;> simp [Shape.failedUnit] at hunit
    rcases f with h | h | ⟨a, h⟩ <;> rcases h with e | _ <;>
      exact ⟨by simp [reported, reportLabel, executionOrder, Shape.events, completed, aborted,
          Halt.outcome, Halt.handler],
        by simp [stdout, Shape.events, completed, aborted, Halt.outcome, Halt.handler],
        by simp [executionOrder, Shape.events, completed, aborted, Halt.outcome,
          Halt.handler, Event.unit]⟩
  · simp [executionOrder] at hname
    subst hname
    rcases sh with f | ⟨u, f⟩ | ⟨u, w, f⟩ | ⟨u, w, d⟩ <;> simp [Shape.failedUnit] at hunit
    rcases f with h | h | ⟨a, h⟩ <;> rcases h with e | _ <;>
      exact ⟨by simp [reported, reportLabel, executionOrder, Shape.events, completed, aborted,
          Halt.outcome, Halt.handler],
        by simp [stdout, Shape.events, completed, aborted, Halt.outcome, Halt.handler],
        by simp [executionOrder, Shape.events, completed, aborted, Halt.outcome,
          Halt.handler, Event.unit]⟩

/-- The hypotheses of C3 hold for `k = 2` in the run in which the
confirmation of WETH throws. -/
theorem fail_fast_witness :
    failedAt (run (failing "WETH" (Fault.deployed "boom")) ()) "WETH" ∧
    (stdout (run (failing "WETH" (Fault.deployed "boom")) ())).length = 2 - 1 ∧
    (∀ ev ∈ run (failing "WETH" (Fault.deployed "boom")) (),
      ∀ n ∈ executionOrder.drop 2, ev.unit ≠ some n) :=
  ⟨by decide,
    (fail_fast (failing "WETH" (Fault.deployed "boom")) () 2 "WETH" (by decide) (by decide)
      (by decide)).2⟩

/-- C4, as stated, fails: when the `deploy` call of WETH never settles, the run
consists of the USDC block and the two WETH calls and stops there; neither
`process.exit(0)` nor `process.exit(1)` is called and nothing is written to the
error output, although WETH and DexBook were not deployed. -/
theorem stalled_run_never_exits :
    run (failing "WETH" (Fault.stall Kind.deploy)) () =
      [Event.getContractFactory "USDC" (Outcome.returned ()),
       Event.deploy "USDC" [] (Outcome.returned "0xUSDC"),
       Event.deployed "USDC" (Outcome.returned ()),
       Event.consoleLog ["usdc contract address:", "0xUSDC"],
       Event.getContractFactory "WETH" (Outcome.returned ()),
       Event.deploy "WETH" [] Outcome.pending] ∧
    exitCodes (run (failing "WETH" (Fault.stall Kind.deploy)) ()) = [] ∧
    stderr (run (failing "WETH" (Fault.stall Kind.deploy)) ()) = [] := by
  refine ⟨?_, ?_, ?_⟩ <;> decide

/-- C4, amended: a run in which every awaited call settles ends with exactly
one `process.exit`, as its last event, with code 0 or 1, and the code is 0 if
and only if all three deployments went through; when a call throws, the exit
code is 1 and the thrown error is passed to `console.error` right before
`process.exit(1)`; and in a run in which a call never settles, that call is the
last event, `process.exit` is not called and nothing is written to the error
output. -/
theorem exit_status {σ : Type} (hre : Hre σ) (s : σ) :
    (settled (run hre s) →
      (∃ code, (code = 0 ∨ code = 1) ∧ exitCodes (run hre s) = [code] ∧
        (run hre s).getLast? = some (Event.exit code)) ∧
      (exitCodes (run hre s) = [0] ↔ ∀ n ∈ executionOrder, confirmed (run hre s) n)) ∧
    (∀ ev ∈ run hre s, ∀ e, ev.thrown = some e →
      exitCodes (run hre s) = [1] ∧ stderr (run hre s) = [e] ∧
      ∃ pre, run hre s = pre ++ [ev, Event.consoleError e, Event.exit 1]) ∧
    (¬ settled (run hre s) →
      exitCodes (run hre s) = [] ∧ stderr (run hre s) = [] ∧
      ∃ ev, (run hre s).getLast? = some ev ∧ ev.unsettled = true) := by
  obtain ⟨sh, hsh⟩ := run_shape hre s
  rw [hsh]
  refine ⟨?_, ?_, ?_⟩
  · intro hset
    have hhalt := settled_shape sh hset
    refine ⟨?_, ?_⟩
    · rcases sh with f | ⟨u, f⟩ | ⟨u, w, f⟩ | ⟨u, w, d⟩ <;>
        first
        | (rcases f with h | h | ⟨a, h⟩ <;> rcases h with e | _ <;>
            simp [Shape.halt, Failure.halt] at hhalt <;>
            simp [Shape.events, completed, aborted, Halt.outcome, Halt.handler, exitCodes])
        | simp [Shape.events, completed, exitCodes]
    · rcases sh with f | ⟨u, f⟩ | ⟨u, w, f⟩ | ⟨u, w, d⟩ <;>
        first
        | (rcases f with h | h | ⟨a, h⟩ <;> rcases h with e | _ <;>
            simp [Shape.halt, Failure.halt] at hhalt <;>
            simp [Shape.events, completed, aborted, Halt.outcome, Halt.handler, exitCodes,
              confirmed, executionOrder] <;>
            try exact ⟨"USDC", fun h => absurd rfl h⟩)
        | simp [Shape.events, completed, exitCodes, confirmed, executionOrder]
  · intro ev hev e hth
    obtain ⟨h1, h2, h3⟩ := thrown_tail sh ev e hev hth
    exact ⟨h3, h2, _, h1⟩
  · intro hnot
    have hhalt := unsettled_shape sh hnot
    rcases sh with f | ⟨u, f⟩ | ⟨u, w, f⟩ | ⟨u, w, d⟩ <;>
      first
      | (rcases f with h | h | ⟨a, h⟩ <;> rcases h with e | _ <;>
          simp [Shape.halt, Failure.halt] at hhalt <;>
          simp [Shape.events, completed, aborted, Halt.outcome, Halt.handler, exitCodes,
            stderr, Event.unsettled])
      | simp [Shape.halt] at hhalt

/-- Amended C4 at three runs: every call returns; the `deploy` call of DexBook
throws; the `deploy` call of WETH never settles. -/
theorem exit_status_witness :
    (settled (run allFine ()) ∧
      ∃ code, (code = 0 ∨ code = 1) ∧ exitCodes (run allFine ()) = [code] ∧
        (run allFine ()).getLast? = some (Event.exit code)) ∧
    (Event.deploy "DexBook" ["0xWETH", "0xUSDC"] (Outcome.threw "boom") ∈
        run (failing "DexBook" (Fault.deploy "boom")) () ∧
      exitCodes (run (failing "DexBook" (Fault.deploy "boom")) ()) = [1] ∧
      stderr (run (failing "DexBook" (Fault.deploy "boom")) ()) = ["boom"]) ∧
    (¬ settled (run (failing "WETH" (Fault.stall Kind.deploy)) ()) ∧
      exitCodes (run (failing "WETH" (Fault.stall Kind.deploy)) ()) = []) :=
  ⟨⟨by decide, ((exit_status allFine ()).1 (by decide)).1⟩,
    ⟨by decide,
      ((exit_status (failing "DexBook" (Fault.deploy "boom")) ()).2.1
        (Event.deploy "DexBook" ["0xWETH", "0xUSDC"] (Outcome.threw "boom")) (by decide)
        "boom" (by decide)).1,
      ((exit_status (failing "DexBook" (Fault.deploy "boom")) ()).2.1
        (Event.deploy "DexBook" ["0xWETH", "0xUSDC"] (Outcome.threw "boom")) (by decide)
        "boom" (by decide)).2.1⟩,
    ⟨by decide,
      ((exit_status (failing "WETH" (Fault.stall Kind.deploy)) ()).2.2 (by decide)).1⟩⟩

/-- C6: in a run in which no step fails, standard output consists of exactly
three lines: the USDC label with the address returned by the USDC deployment,
the WETH label with the address returned by the WETH deployment, and the
DexBook label with the address returned by the DexBook deployment, in this
order. -/
theorem report_lines {σ : Type} (hre : Hre σ) (s : σ) (h : succeeded (run hre s)) :
    ∃ u w d : String,
      deployments (run hre s) =
        [Event.deploy "USDC" [] (Outcome.returned u),
         Event.deploy "WETH" [] (Outcome.returned w),
         Event.deploy "DexBook" [w, u] (Outcome.returned d)] ∧
      stdout (run hre s) =
        ["usdc contract address:" ++ " " ++ u,
         "weth contract address:" ++ " " ++ w,
         "dexBook contract address:" ++ " " ++ d] := by
  obtain ⟨sh, hsh⟩ := run_shape hre s
  rw [hsh] at h ⊢
  obtain ⟨u, w, d, rfl⟩ := succeeded_shape sh h
  refine ⟨u, w, d, ?_, ?_⟩
  · simp [Shape.events, completed, deployments, Event.deployOutcome]
  · simp [Shape.events, completed, stdout, String.intercalate, String.intercalate.go]

/-- The hypothesis of C6 holds in the run in which every call returns. -/
theorem report_lines_witness :
    succeeded (run allFine ()) ∧
    ∃ u w d : String,
      deployments (run allFine ()) =
        [Event.deploy "USDC" [] (Outcome.returned u),
         Event.deploy "WETH" [] (Outcome.returned w),
         Event.deploy "DexBook" [w, u] (Outcome.returned d)] ∧
      stdout (run allFine ()) =
        ["usdc contract address:" ++ " " ++ u,
         "weth contract address:" ++ " " ++ w,
         "dexBook contract address:" ++ " " ++ d] :=
  ⟨by decide, report_lines allFine () (by decide)⟩

/-- C7: in every run, for each unit and each kind of call (factory lookup,
`deploy`, `deployed()`) at most one such call is made, so no unit is deployed
twice; and at most one call throws in the whole run, so nothing is retried. -/
theorem at_most_one_attempt {σ : Type} (hre : Hre σ) (s : σ) (kind : Kind) (name : String) :
    callCount (run hre s) kind name ≤ 1 ∧ throwCount (run hre s) ≤ 1 := by
  obtain ⟨sh, hsh⟩ := run_shape hre s
  rw [hsh]
  refine ⟨?_, ?_⟩
  · have hnodup : (calls sh.events).Nodup := by
      rcases sh with f | ⟨u, f⟩ | ⟨u, w, f⟩ | ⟨u, w, d⟩ <;>
        first
        | (rcases f with h | h | ⟨a, h⟩ <;> rcases h with e | _ <;>
            simp [Shape.events, completed, aborted, Halt.outcome, Halt.handler, calls,
              Event.call])
        | simp [Shape.events, completed, calls, Event.call]
    exact List.nodup_iff_count_le_one.mp hnodup (kind, name)
  · rcases sh with f | ⟨u, f⟩ | ⟨u, w, f⟩ | ⟨u, w, d⟩ <;>
      first
      | (rcases f with h | h | ⟨a, h⟩ <;> rcases h with e | _ <;>
          simp [Shape.events, completed, aborted, Halt.outcome, Halt.handler, throwCount,
            Event.thrown])
      | simp [Shape.events, completed, throwCount, Event.thrown]

/-- C9: in every run, a unit that is reported has a `deploy` call that returned
the printed address and a `deployed()` call that returned; if the `deploy` call
of a unit returns and its `deployed()` call throws, then the unit is not
reported, no call is made for any later unit, and the run exits with code 1
after writing that error; and if the `deployed()` call never settles, the unit
is not reported and no call is made for any later unit either. -/
theorem report_requires_confirmation {σ : Type} (hre : Hre σ) (s : σ) :
    (∀ n ∈ executionOrder, ∀ a, Event.consoleLog [reportLabel n, a] ∈ run hre s →
      (∃ as, Event.deploy n as (Outcome.returned a) ∈ run hre s) ∧
      Event.deployed n (Outcome.returned ()) ∈ run hre s) ∧
    (∀ (name : String) (args : List String) (address : String) (e : Error),
      Event.deploy name args (Outcome.returned address) ∈ run hre s →
      Event.deployed name (Outcome.threw e) ∈ run hre s →
      ¬ reported (run hre s) name ∧
      (∀ ev ∈ run hre s, ∀ n ∈ laterUnits name, ev.unit ≠ some n) ∧
      exitCodes (run hre s) = [1] ∧ stderr (run hre s) = [e]) ∧
    (∀ name : String, Event.deployed name Outcome.pending ∈ run hre s →
      ¬ reported (run hre s) name ∧
      (∀ ev ∈ run hre s, ∀ n ∈ laterUnits name, ev.unit ≠ some n)) := by
  obtain ⟨sh, hsh⟩ := run_shape hre s
  rw [hsh]
  refine ⟨?_, ?_, ?_⟩
  · rcases sh with f | ⟨u, f⟩ | ⟨u, w, f⟩ | ⟨u, w, d⟩ <;>
      first
      | (rcases f with h | h | ⟨a, h⟩ <;> rcases h with e | _ <;>
          simp [Shape.events, completed, aborted, Halt.outcome, Halt.handler, reportLabel,
            executionOrder])
      | simp [Shape.events, completed, reportLabel, executionOrder]
  · intro name args address e _ hwait
    rcases sh with f | ⟨u, f⟩ | ⟨u, w, f⟩ | ⟨u, w, d⟩ <;>
      first
      | (rcases f with h | h | ⟨a, h⟩ <;> rcases h with e' | _ <;>
          simp [Shape.events, completed, aborted, Halt.outcome, Halt.handler] at hwait <;>
          obtain ⟨rfl, rfl⟩ := hwait <;>
          simp [Shape.events, completed, aborted, Halt.outcome, Halt.handler, reported,
            reportLabel, laterUnits, executionOrder, Event.unit, exitCodes, stderr])
      | simp [Shape.events, completed] at hwait
  · intro name hwait
    rcases sh with f | ⟨u, f⟩ | ⟨u, w, f⟩ | ⟨u, w, d⟩ <;>
      first
      | (rcases f with h | h | ⟨a, h⟩ <;> rcases h with e' | _ <;>
          simp [Shape.events, completed, aborted, Halt.outcome, Halt.handler] at hwait <;>
          subst hwait <;>
          simp [Shape.events, completed, aborted, Halt.outcome, Halt.handler, reported,
            reportLabel, laterUnits, executionOrder, Event.unit])
      | simp [Shape.events, completed] at hwait

/-- The hypotheses of C9 hold in the run in which the confirmation of WETH
throws, and DexBook is reported in the run in which every call returns. -/
theorem report_requires_confirmation_witness :
    (Event.consoleLog [reportLabel "DexBook", "0xDexBook"] ∈ run allFine () ∧
      Event.deployed "DexBook" (Outcome.returned ()) ∈ run allFine ()) ∧
    (Event.deploy "WETH" [] (Outcome.returned "0xWETH") ∈
        run (failing "WETH" (Fault.deployed "boom")) () ∧
      Event.deployed "WETH" (Outcome.threw "boom") ∈
        run (failing "WETH" (Fault.deployed "boom")) () ∧
      ¬ reported (run (failing "WETH" (Fault.deployed "boom")) ()) "WETH" ∧
      stderr (run (failing "WETH" (Fault.deployed "boom")) ()) = ["boom"]) :=
  ⟨⟨by decide,
      ((report_requires_confirmation allFine ()).1 "DexBook" (by decide) "0xDexBook"
        (by decide)).2⟩,
    ⟨by decide, by decide,
      ((report_requires_confirmation (failing "WETH" (Fault.deployed "boom")) ()).2.1 "WETH" []
        "0xWETH" "boom" (by decide) (by decide)).1,
      ((report_requires_confirmation (failing "WETH" (Fault.deployed "boom")) ()).2.1 "WETH" []
        "0xWETH" "boom" (by decide) (by decide)).2.2.2⟩⟩

/-- C5, as stated, fails: when the `deploy` call of USDC throws `"boom"` and
when the `deploy` call of WETH throws `"boom"`, the error output is the same
one value `"boom"`, the raw cause, although the failing units differ; so the
surfaced error does not carry the name of the failing unit. -/
theorem surfaced_error_lacks_unit :
    failedAt (run (failing "USDC" (Fault.deploy "boom")) ()) "USDC" ∧
    failedAt (run (failing "WETH" (Fault.deploy "boom")) ()) "WETH" ∧
    stderr (run (failing "USDC" (Fault.deploy "boom")) ()) = ["boom"] ∧
    stderr (run (failing "WETH" (Fault.deploy "boom")) ()) = ["boom"] := by
  refine ⟨?_, ?_, ?_, ?_⟩
  · exact ⟨Event.deploy "USDC" [] (Outcome.threw "boom"), by decide, by decide, by decide⟩
  · exact ⟨Event.deploy "WETH" [] (Outcome.threw "boom"), by decide, by decide, by decide⟩
  · decide
  · decide

/-- C5, amended: when a call throws the error `e`, the error output of the run
is exactly `e`, and the run exits with code 1; when that call belongs to USDC,
nothing has been printed on standard output and no call is made for WETH or
DexBook. -/
theorem surfaced_error_is_cause {σ : Type} (hre : Hre σ) (s : σ) (ev : Event) (e : Error)
    (hev : ev ∈ run hre s) (hth : ev.thrown = some e) :
    stderr (run hre s) = [e] ∧ exitCodes (run hre s) = [1] ∧
    (ev.unit = some "USDC" →
      stdout (run hre s) = [] ∧
      ∀ ev' ∈ run hre s, ev'.unit ≠ some "WETH" ∧ ev'.unit ≠ some "DexBook") := by
  obtain ⟨sh, hsh⟩ := run_shape hre s
  rw [hsh] at hev ⊢
  obtain ⟨-, h2, h3⟩ := thrown_tail sh ev e hev hth
  refine ⟨h2, h3, ?_⟩
  intro hunit
  obtain ⟨hfail, -⟩ := failedAt_shape sh "USDC" ⟨ev, hev, hunit, by simp [hth]⟩
  rcases sh with f | ⟨u, f⟩ | ⟨u, w, f⟩ | ⟨u, w, d⟩ <;> simp [Shape.failedUnit] at hfail
  rcases f with h | h | ⟨a', h⟩ <;> rcases h with e' | _ <;>
    simp [Shape.events, aborted, Halt.outcome, Halt.handler, stdout, Event.unit]

/-- The hypotheses of amended C5 hold in the run in which the `deploy` call of
USDC throws. -/
theorem surfaced_error_is_cause_witness :
    Event.deploy "USDC" [] (Outcome.threw "boom") ∈
      run (failing "USDC" (Fault.deploy "boom")) () ∧
    stderr (run (failing "USDC" (Fault.deploy "boom")) ()) = ["boom"] ∧
    stdout (run (failing "USDC" (Fault.deploy "boom")) ()) = [] :=
  ⟨by decide,
    (surfaced_error_is_cause (failing "USDC" (Fault.deploy "boom")) ()
      (Event.deploy "USDC" [] (Outcome.threw "boom")) "boom" (by decide) (by decide)).1,
    ((surfaced_error_is_cause (failing "USDC" (Fault.deploy "boom")) ()
      (Event.deploy "USDC" [] (Outcome.threw "boom")) "boom" (by decide) (by decide)).2.2
      (by decide)).1⟩

/-! ## The Hardhat configuration -/

/-- C8, as stated, fails: in the environment in which neither variable is set,
evaluating the configuration does not throw; it returns a configuration whose
`apothem` entry has an undefined url and the account list `[undefined]`. -/
theorem config_without_variables :
    moduleExports emptyEnv =
      Outcome.returned
        { solidity := "0.8.19"
          networks := [("apothem", { url := none, accounts := [none] })] } ∧
    ¬ ∃ e, moduleExports emptyEnv = Outcome.threw e := by
  refine ⟨rfl, ?_⟩
  rintro ⟨e, he⟩
  simp [moduleExports] at he

/-- C8, amended: in every environment, evaluating the configuration returns a
configuration whose `apothem` entry has as url whatever `RPC_URL_APOTHEM` reads
as and as accounts the one-element list of whatever `PRIVATE_KEY` reads as; when
both variables are set these are the url value and the list of the key value. -/
theorem config_reads_environment (env : Env) :
    ∃ cfg, moduleExports env = Outcome.returned cfg ∧
      cfg.networks.lookup "apothem" =
        some { url := env "RPC_URL_APOTHEM", accounts := [env "PRIVATE_KEY"] } ∧
      ∀ url key, env "RPC_URL_APOTHEM" = some url → env "PRIVATE_KEY" = some key →
        cfg.networks.lookup "apothem" = some { url := some url, accounts := [some key] } := by
  refine ⟨_, rfl, ?_, ?_⟩
  · simp [List.lookup]
  · intro url key hurl hkey
    simp [List.lookup, hurl, hkey]

/-- Amended C8 in an environment in which both variables are set. -/
theorem config_reads_environment_witness :
    apothemEnv "RPC_URL_APOTHEM" = some "https://erpc.apothem.network" ∧
    apothemEnv "PRIVATE_KEY" = some "0xkey" ∧
    ∃ cfg, moduleExports apothemEnv = Outcome.returned cfg ∧
      cfg.networks.lookup "apothem" =
        some { url := some "https://erpc.apothem.network", accounts := [some "0xkey"] } := by
  obtain ⟨cfg, hcfg, -, hset⟩ := config_reads_environment apothemEnv
  exact ⟨by decide, by decide, cfg, hcfg,
    hset "https://erpc.apothem.network" "0xkey" (by decide) (by decide)⟩

/-! ## The references of the script -/

/-- C10: read off `main`, the script deploys USDC, WETH, DexBook in this order,
and the `deploy` call of DexBook refers to WETH and USDC while those of USDC
and WETH refer to nothing; in every run the units deployed are the first ones
of that order, all three when no step fails, and the arguments of each `deploy`
call are the addresses returned by earlier `deploy` calls of the units it
refers to; no unit refers to itself through any chain of references; every
reference joins two of the three units; and each unit comes later in the order
than the units it refers to. -/
theorem references_acyclic_and_ordered :
    scriptOrder = ["USDC", "WETH", "DexBook"] ∧ scriptOrder = executionOrder ∧
    constructorRefs "USDC" = [] ∧ constructorRefs "WETH" = [] ∧
    constructorRefs "DexBook" = ["WETH", "USDC"] ∧
    (∀ (σ : Type) (hre : Hre σ) (s : σ),
      (deployments (run hre s)).filterMap Event.unit =
        scriptOrder.take (deployments (run hre s)).length) ∧
    (∀ (σ : Type) (hre : Hre σ) (s : σ), succeeded (run hre s) →
      (deployments (run hre s)).filterMap Event.unit = scriptOrder) ∧
    (∀ (σ : Type) (hre : Hre σ) (s : σ) (name : String) (args : List String)
        (o : Outcome String), Event.deploy name args o ∈ run hre s →
      List.Forall₂
        (fun ref arg => ∃ as,
          Event.deploy ref as (Outcome.returned arg) ∈ beforeDeploy (run hre s) name)
        (constructorRefs name) args) ∧
    (∀ a, ¬ Relation.TransGen dependsOn a a) ∧
    (∀ a b, dependsOn a b → a ∈ scriptOrder ∧ b ∈ scriptOrder) ∧
    (∀ a b, dependsOn a b → scriptOrder.indexOf b < scriptOrder.indexOf a) := by
  refine ⟨scriptOrder_eq, by decide, by decide, by decide, by decide, ?_, ?_, ?_, ?_, ?_,
    dependsOn_indexOf⟩
  · intro σ hre s
    obtain ⟨sh, hsh⟩ := run_shape hre s
    rw [hsh, scriptOrder_eq]
    rcases sh with f | ⟨u, f⟩ | ⟨u, w, f⟩ | ⟨u, w, d⟩ <;>
      first
      | (rcases f with h | h | ⟨a, h⟩ <;> rcases h with e | _ <;>
          simp [Shape.events, completed, aborted, Halt.outcome, Halt.handler, deployments,
            Event.deployOutcome, Event.unit])
      | simp [Shape.events, completed, deployments, Event.deployOutcome, Event.unit]
  · intro σ hre s hs
    obtain ⟨sh, hsh⟩ := run_shape hre s
    rw [hsh] at hs ⊢
    obtain ⟨u, w, d, rfl⟩ := succeeded_shape sh hs
    rw [scriptOrder_eq]
    simp [Shape.events, completed, deployments, Event.deployOutcome, Event.unit]
  · intro σ hre s name args o hmem
    obtain ⟨sh, hsh⟩ := run_shape hre s
    rw [hsh] at hmem ⊢
    rw [constructorRefs_eq]
    rcases sh with f | ⟨u, f⟩ | ⟨u, w, f⟩ | ⟨u, w, d⟩ <;>
      first
      | (rcases f with h | h | ⟨a, h⟩ <;> rcases h with e | _ <;>
          simp [Shape.events, completed, aborted, Halt.outcome, Halt.handler] at hmem <;>
          (try casesm* _ ∨ _) <;> casesm* _ ∧ _ <;> subst_vars <;>
          simp [Shape.events, completed, aborted, Halt.outcome, Halt.handler, beforeDeploy,
            Event.deployOutcome, Event.unit, List.takeWhile])
      | (simp [Shape.events, completed] at hmem
         (try casesm* _ ∨ _) <;> casesm* _ ∧ _ <;> subst_vars <;>
          simp [Shape.events, completed, beforeDeploy, Event.deployOutcome, Event.unit,
            List.takeWhile])
  · intro a h
    exact lt_irrefl _ (transGen_dependsOn_indexOf a a h)
  · intro a b h
    unfold dependsOn at h
    rw [constructorRefs_eq] at h
    rw [scriptOrder_eq]
    split at h
    · subst a
      simp at h
      rcases h with rfl | rfl <;> simp
    · simp at h

/-- C10 at the run in which every call returns: the `deploy` call of DexBook is
made with the addresses returned for WETH and USDC, DexBook refers to WETH, and
WETH comes before DexBook in the order of the script. -/
theorem references_acyclic_and_ordered_witness :
    Event.deploy "DexBook" ["0xWETH", "0xUSDC"] (Outcome.returned "0xDexBook") ∈
      run allFine () ∧
    List.Forall₂
      (fun ref arg => ∃ as,
        Event.deploy ref as (Outcome.returned arg) ∈ beforeDeploy (run allFine ()) "DexBook")
      (constructorRefs "DexBook") ["0xWETH", "0xUSDC"] ∧
    (deployments (run allFine ())).filterMap Event.unit = scriptOrder ∧
    dependsOn "DexBook" "WETH" ∧
    scriptOrder.indexOf "WETH" < scriptOrder.indexOf "DexBook" :=
  ⟨by decide,
    references_acyclic_and_ordered.2.2.2.2.2.2.2.1 Unit allFine () "DexBook"
      ["0xWETH", "0xUSDC"] (Outcome.returned "0xDexBook") (by decide),
    references_acyclic_and_ordered.2.2.2.2.2.2.1 Unit allFine () (by decide),
    by unfold dependsOn; decide,
    references_acyclic_and_ordered.2.2.2.2.2.2.2.2.2.2 "DexBook" "WETH"
      (by unfold dependsOn; decide)⟩

end DexBook
